import Mathlib

/-!
Verification of the text-segmentation and playback-lifecycle logic of
`Voice_generator/VoiceProcessor.py`.

Python strings are embedded as `List Char` (`PyStr`).  The mutable
`VoiceProcessor` object is embedded as the record `ProcState`; each Python
method becomes a pure function `ProcState → ... → ProcState`.  The
background worker (`process_audio`) is modelled at its cooperative
cancellation points: `process_audio_after_stop` is the execution of the
worker loop from a point where `stop_event` is set and no further items are
being pushed, parameterised by a failure oracle `fail` that says which
synthesis calls raise (network error / non-2xx / sink write error).
`queue.Queue` is embedded as its two relevant pieces of state: the internal
deque (`queueItems`) and the `unfinished_tasks` counter (`unfinished`),
with `put` appending and incrementing, the worker's `task_done` (in the
`finally` block) decrementing, and `join` returning exactly when
`unfinished = 0`.
-/

/-- Python strings, embedded as lists of characters. -/
abbrev PyStr := List Char

/-- The ASCII whitespace characters that Python's `str.strip()` removes
(the inputs in this development are ASCII, so the extra Unicode whitespace
stripped by Python does not arise). -/
def isPySpace (c : Char) : Bool :=
  c == ' ' || c == '\t' || c == '\n' || c == '\r' || c == '\x0b' || c == '\x0c'

/-- Python `s.strip()`: remove leading and trailing whitespace. -/
def pyStrip (s : PyStr) : PyStr :=
  ((s.dropWhile isPySpace).reverse.dropWhile isPySpace).reverse

/-- ASCII lowercase of one character (Python `str.lower()` on the ASCII
letters that make up the allowed voice names). -/
def pyLowerChar (c : Char) : Char :=
  if 'A' ≤ c ∧ c ≤ 'Z' then Char.ofNat (c.toNat + 32) else c

/-- Python `s.lower()`. -/
def pyLower (s : PyStr) : PyStr := s.map pyLowerChar

/-- Find the first (leftmost) occurrence of the paragraph separator
`"\n\n"` in `s`: returns `some (pre, post)` with `s = pre ++ "\n\n" ++ post`
and no separator inside `pre`, or `none` when `s` has no occurrence.
This is the search that backs both Python's `"\n\n" in s` test and
`s.split("\n\n", 1)` / `s.split("\n\n")`. -/
def splitFirstNl2 : PyStr → Option (PyStr × PyStr)
  | [] => none
  | [_] => none
  | c1 :: c2 :: rest =>
    if c1 == '\n' && c2 == '\n' then some ([], rest)
    else (splitFirstNl2 (c2 :: rest)).map (fun pr => (c1 :: pr.1, pr.2))

/-- Python `"\n\n" in s`: does `s` contain the two-character paragraph
separator as a contiguous substring? -/
def hasNl2 : PyStr → Bool
  | [] => false
  | [_] => false
  | c1 :: c2 :: rest => (c1 == '\n' && c2 == '\n') || hasNl2 (c2 :: rest)

/-- Fuel-indexed body of the `while "\n\n" in token_buffer` loop of
`check_and_process_tokens`: each iteration splits off the part before the
first separator, emits its stripped form (it is `put` on the sentence
queue), and continues on the stripped remainder.  The fuel only bounds the
iteration count; `capLoopFuel_congr` shows any fuel above the buffer length
gives the same answer, since every iteration removes at least the
two-character separator. -/
def capLoopFuel : Nat → PyStr → List PyStr × PyStr
  | 0, buf => ([], buf)
  | fuel + 1, buf =>
    match splitFirstNl2 buf with
    | none => ([], buf)
    | some (pre, post) =>
      let r := capLoopFuel fuel (pyStrip post)
      (pyStrip pre :: r.1, r.2)

/-- The `while "\n\n" in token_buffer` loop of `check_and_process_tokens`:
returns (the utterances emitted to the queue, in order; the final buffer). -/
def capLoop (buf : PyStr) : List PyStr × PyStr :=
  capLoopFuel (buf.length + 1) buf

/-- Fuel-indexed body of Python `text.split("\n\n")` (all occurrences,
leftmost first, non-overlapping). -/
def splitAllFuel : Nat → PyStr → List PyStr
  | 0, s => [s]
  | fuel + 1, s =>
    match splitFirstNl2 s with
    | none => [s]
    | some (pre, post) => pre :: splitAllFuel fuel post

/-- Python `text.split("\n\n")`. -/
def splitAllNl2 (s : PyStr) : List PyStr :=
  splitAllFuel (s.length + 1) s

/-- The state of one `VoiceProcessor` object, together with two observation
histories: `startedCount` counts how many worker threads have ever been
started, and `played` records the utterances whose synthesized audio was
streamed to the output device. -/
structure ProcState where
  /-- The internal deque of `sentence_queue` (`sentence_queue.queue`). -/
  queueItems : List PyStr
  /-- `sentence_queue.unfinished_tasks`: incremented by `put`, decremented
  by `task_done`; `sentence_queue.join()` returns exactly when it is 0. -/
  unfinished : Nat
  /-- `self.token_buffer`. -/
  token_buffer : PyStr
  /-- `self.is_processing` (a `threading.Event`). -/
  is_processing : Bool
  /-- `self.stop_event` (a `threading.Event`). -/
  stop_event : Bool
  /-- Whether `self.audio_thread` is not `None` and `is_alive()`. -/
  workerAlive : Bool
  /-- Observation: number of worker threads started so far. -/
  startedCount : Nat
  /-- Observation: utterances whose audio was written to the sink. -/
  played : List PyStr
deriving DecidableEq

/-- The state of a freshly constructed `VoiceProcessor`. -/
def initState : ProcState :=
  { queueItems := []
    unfinished := 0
    token_buffer := []
    is_processing := false
    stop_event := false
    workerAlive := false
    startedCount := 0
    played := [] }

/-- `sentence_queue.put(s)`: append to the deque, bump `unfinished_tasks`. -/
def queuePut (st : ProcState) (s : PyStr) : ProcState :=
  { st with queueItems := st.queueItems ++ [s], unfinished := st.unfinished + 1 }

/-- `start_audio_processing`: clear the stop event and start a fresh
worker thread. -/
def start_audio_processing (st : ProcState) : ProcState :=
  { st with stop_event := false, workerAlive := true,
            startedCount := st.startedCount + 1 }

/-- `_ensure_audio_processing_started`: start a worker only when none is
alive. -/
def ensure_audio_processing_started (st : ProcState) : ProcState :=
  if st.workerAlive then st else start_audio_processing st

/-- `check_and_process_tokens`: run the separator loop on the token buffer;
every extracted part is `put` on the sentence queue (append + unfinished
bump, once per iteration) and the stripped remainder becomes the buffer. -/
def check_and_process_tokens (st : ProcState) : ProcState :=
  let r := capLoop st.token_buffer
  { st with queueItems := st.queueItems ++ r.1,
            unfinished := st.unfinished + r.1.length,
            token_buffer := r.2 }

/-- `add_token`: append the token to the buffer, process complete
paragraphs, then make sure a worker is running. -/
def add_token (st : ProcState) (tok : PyStr) : ProcState :=
  ensure_audio_processing_started
    (check_and_process_tokens { st with token_buffer := st.token_buffer ++ tok })

/-- `add_text_to_queue`: split on the paragraph separator and `put` the
stripped form of every part (no emptiness filter in the source), then make
sure a worker is running.  The token buffer is untouched. -/
def add_text_to_queue (st : ProcState) (text : PyStr) : ProcState :=
  ensure_audio_processing_started
    ((splitAllNl2 text).foldl (fun s par => queuePut s (pyStrip par)) st)

/-- `finalize_tokens`: if the buffer is non-empty (Python truthiness),
`put` its stripped contents and clear it. -/
def finalize_tokens (st : ProcState) : ProcState :=
  if st.token_buffer = [] then st
  else
    { st with queueItems := st.queueItems ++ [pyStrip st.token_buffer],
              unfinished := st.unfinished + 1,
              token_buffer := [] }

/-- `clear_queues`: clear the deque (`sentence_queue.queue.clear()`),
empty the token buffer, clear `is_processing`.  Note the source never
touches `unfinished_tasks` here. -/
def clear_queues (st : ProcState) : ProcState :=
  { st with queueItems := [], token_buffer := [], is_processing := false }

/-- The result of running the worker loop of `process_audio` to
completion from a point where `stop_event` is set. -/
structure WorkerRun where
  /-- Utterances popped and attempted (synthesis requested), in order. -/
  attempted : List PyStr
  /-- Utterances whose audio was streamed to the sink (synthesis did not
  fail). -/
  played : List PyStr
  /-- Contents of the deque when the loop exits. -/
  remaining : List PyStr
  /-- `unfinished_tasks` when the loop exits: the `finally` block calls
  `task_done()` once per popped item, successful or not. -/
  unfinished : Nat
deriving DecidableEq

/-- The worker loop of `process_audio`, run from a point where
`stop_event` is set and no producer is pushing.  The loop guard is
`not stop_event.is_set() or not sentence_queue.empty()`, so with the stop
event set it keeps popping while the queue is non-empty; each popped
sentence is sent to the synthesis call (streamed to the sink unless `fail`
says the call raises), and the `finally` block always calls `task_done`.
On the success path the loop breaks early when the stop event is set and
the queue is empty; on the failure path the loop guard exits then. -/
def process_audio_after_stop (fail : PyStr → Bool) : List PyStr → Nat → WorkerRun
  | [], u => { attempted := [], played := [], remaining := [], unfinished := u }
  | s :: rest, u =>
    let playedHere := if fail s then [] else [s]
    match rest with
    | [] =>
      { attempted := [s], played := playedHere, remaining := [], unfinished := u - 1 }
    | r0 :: rs =>
      let r := process_audio_after_stop fail (r0 :: rs) (u - 1)
      { attempted := s :: r.attempted, played := playedHere ++ r.played,
        remaining := r.remaining, unfinished := r.unfinished }

/-- `stop_audio_processing`: set the stop event; if a worker is alive,
join it (the worker then runs its loop to completion, performs the
fade-out, releases the sink and exits); then `clear_queues`. -/
def stop_audio_processing (fail : PyStr → Bool) (st : ProcState) : ProcState :=
  let st1 := { st with stop_event := true }
  if st1.workerAlive then
    let r := process_audio_after_stop fail st1.queueItems st1.unfinished
    clear_queues
      { st1 with queueItems := r.remaining, unfinished := r.unfinished,
                 played := st1.played ++ r.played, is_processing := false,
                 workerAlive := false }
  else clear_queues st1

/-- `reset_audio_playback`: stop, then start again. -/
def reset_audio_playback (fail : PyStr → Bool) (st : ProcState) : ProcState :=
  start_audio_processing (stop_audio_processing fail st)

/-- `wait_for_completion`: `sentence_queue.join()` (which returns exactly
when `unfinished_tasks = 0` — theorems about this function therefore take
that as a hypothesis describing the state at which the call resumes),
followed by `stop_audio_processing`. -/
def wait_for_completion (fail : PyStr → Bool) (st : ProcState) : ProcState :=
  stop_audio_processing fail st

/-- Whether `sentence_queue.join()` would return immediately in state
`st`: `Queue.join` waits on `unfinished_tasks` reaching 0. -/
def queue_join_ready (st : ProcState) : Bool :=
  st.unfinished == 0

/-- The argument to the `VoiceProcessor` constructor's `voice` parameter:
an `int` or a `str`. -/
inductive VoiceArg where
  | int (n : Int)
  | str (s : PyStr)

/-- `VoiceProcessor.ALLOWED_VOICES`. -/
def ALLOWED_VOICES : List (Int × PyStr) :=
  [(1, "alloy".data), (2, "echo".data), (3, "fable".data),
   (4, "onyx".data), (5, "nova".data), (6, "shimmer".data)]

/-- `ALLOWED_VOICES.values()`. -/
def allowedVoiceNames : List PyStr := ALLOWED_VOICES.map Prod.snd

/-- `validate_voice`: an `int` is looked up in the dict with default
`"alloy"` (`dict.get`); a `str` whose lowercase form is one of the allowed
names resolves to that lowercase form; everything else resolves to
`"alloy"` (with a warning logged).  It never raises. -/
def validate_voice : VoiceArg → PyStr
  | .int n => (ALLOWED_VOICES.lookup n).getD ("alloy".data)
  | .str s => if pyLower s ∈ allowedVoiceNames then pyLower s else "alloy".data

/-- `fade_out_audio`'s step count: `int(rate / chunk_size * duration)`.
The Python expression uses float arithmetic; for the values in the source
(`24000 / 1024 * 0.5`) every intermediate is exactly representable, so the
rational computation coincides with it.  `int` on a non-negative value is
the floor. -/
def fade_steps (rate chunk_size : Nat) (duration : ℚ) : Nat :=
  (Int.floor ((rate : ℚ) / (chunk_size : ℚ) * duration)).toNat

/-- The byte length of the chunk `fade_out_audio` writes on the step where
the volume has been multiplied by `0.9` exactly `k` times:
`len((b'\x00' * chunk_size) * int(1 - volume)) = chunk_size * int(1 - 0.9^k)`.
For `1 ≤ k` the float value `0.9^k` lies strictly between 0 and 1 exactly
as the rational one does, so `int(1 - volume)` agrees between the two. -/
def fade_chunk_len (chunk_size : Nat) (k : Nat) : Nat :=
  chunk_size * (Int.floor (1 - ((9 : ℚ) / 10) ^ k)).toNat

/-- The byte lengths of all chunks written by `fade_out_audio(stream)`
with the default `duration=0.5`, in order (step `i` of `range(fade_steps)`
runs `volume *= 0.9` first, so it sees volume `0.9^(i+1)`). -/
def fade_out_chunk_sizes (rate chunk_size : Nat) (duration : ℚ) : List Nat :=
  (List.range (fade_steps rate chunk_size duration)).map
    (fun i => fade_chunk_len chunk_size (i + 1))

/-! ### Basic facts about the separator search and the token-buffer loop -/

/-- When the separator search succeeds, it found an actual occurrence. -/
theorem splitFirstNl2_eq_some :
    ∀ {s pre post : PyStr}, splitFirstNl2 s = some (pre, post) →
      s = pre ++ '\n' :: '\n' :: post := by
  intro s
  induction s with
  | nil => intro pre post h; simp [splitFirstNl2] at h
  | cons c1 rest ih =>
    intro pre post h
    cases rest with
    | nil => simp [splitFirstNl2] at h
    | cons c2 r =>
      rw [splitFirstNl2] at h
      by_cases hc : (c1 == '\n' && c2 == '\n') = true
      · rw [if_pos hc] at h
        simp only [Option.some.injEq, Prod.mk.injEq] at h
        obtain ⟨h1, h2⟩ := h
        subst h1; subst h2
        simp only [Bool.and_eq_true, beq_iff_eq] at hc
        rw [hc.1, hc.2]
        rfl
      · rw [if_neg hc] at h
        cases hr : splitFirstNl2 (c2 :: r) with
        | none => rw [hr] at h; simp at h
        | some pr =>
          rw [hr] at h
          simp only [Option.map_some', Option.some.injEq, Prod.mk.injEq] at h
          obtain ⟨h1, h2⟩ := h
          subst h1; subst h2
          have hrec := ih (show splitFirstNl2 (c2 :: r) = some (pr.1, pr.2) by rw [hr])
          rw [List.cons_append, ← hrec]

/-- The remainder returned by the separator search is shorter than the
input by at least the separator's two characters. -/
theorem splitFirstNl2_post_length {s pre post : PyStr}
    (h : splitFirstNl2 s = some (pre, post)) : post.length + 2 ≤ s.length := by
  have := splitFirstNl2_eq_some h
  subst this
  simp [List.length_append]

/-- The containment test agrees with the separator search. -/
theorem hasNl2_eq_isSome : ∀ s : PyStr, hasNl2 s = (splitFirstNl2 s).isSome := by
  intro s
  induction s with
  | nil => rfl
  | cons c1 rest ih =>
    cases rest with
    | nil => rfl
    | cons c2 r =>
      rw [hasNl2, splitFirstNl2]
      cases hc : (c1 == '\n' && c2 == '\n') with
      | true => simp
      | false =>
        simp only [Bool.false_or, if_false, ih]
        cases splitFirstNl2 (c2 :: r) <;> rfl

/-- Stripping never lengthens a string. -/
theorem pyStrip_length_le (s : PyStr) : (pyStrip s).length ≤ s.length := by
  unfold pyStrip
  have h1 := (List.dropWhile_suffix (l := s) isPySpace).length_le
  have h2 := (List.dropWhile_suffix (l := (s.dropWhile isPySpace).reverse) isPySpace).length_le
  simp only [List.length_reverse] at *
  omega

/-- Any two sufficiently large fuels give the loop the same result. -/
theorem capLoopFuel_congr :
    ∀ f1 f2 (buf : PyStr), buf.length < f1 → buf.length < f2 →
      capLoopFuel f1 buf = capLoopFuel f2 buf := by
  intro f1
  induction f1 with
  | zero => intro f2 buf h1; omega
  | succ f1 ih =>
    intro f2 buf h1 h2
    cases f2 with
    | zero => omega
    | succ f2 =>
      rw [capLoopFuel, capLoopFuel]
      cases hs : splitFirstNl2 buf with
      | none => rfl
      | some pr =>
        obtain ⟨pre, post⟩ := pr
        have hlen := splitFirstNl2_post_length hs
        have hstrip := pyStrip_length_le post
        simp only []
        rw [ih f2 (pyStrip post) (by omega) (by omega)]

/-- Unfolding `capLoop` when the buffer has no separator. -/
theorem capLoop_none {buf : PyStr} (h : splitFirstNl2 buf = none) :
    capLoop buf = ([], buf) := by
  rw [capLoop, capLoopFuel, h]

/-- Unfolding `capLoop` when the buffer has a separator: emit the stripped
head part and continue on the stripped remainder. -/
theorem capLoop_some {buf pre post : PyStr}
    (h : splitFirstNl2 buf = some (pre, post)) :
    capLoop buf =
      (pyStrip pre :: (capLoop (pyStrip post)).1, (capLoop (pyStrip post)).2) := by
  have hlen := splitFirstNl2_post_length h
  have hstrip := pyStrip_length_le post
  rw [capLoop, capLoopFuel, h]
  show (pyStrip pre :: (capLoopFuel buf.length (pyStrip post)).1,
      (capLoopFuel buf.length (pyStrip post)).2) = _
  rw [capLoopFuel_congr buf.length ((pyStrip post).length + 1) (pyStrip post)
    (by omega) (by omega)]
  rfl

/-- When the loop exits, the remaining buffer has no separator. -/
theorem capLoop_snd_hasNl2 :
    ∀ (n : Nat) (buf : PyStr), buf.length ≤ n → hasNl2 (capLoop buf).2 = false := by
  intro n
  induction n with
  | zero =>
    intro buf hb
    have : buf = [] := List.length_eq_zero.mp (by omega)
    subst this
    rw [capLoop_none (by rfl)]
    rfl
  | succ n ih =>
    intro buf hb
    cases hs : splitFirstNl2 buf with
    | none =>
      rw [capLoop_none hs, hasNl2_eq_isSome, hs]
      rfl
    | some pr =>
      obtain ⟨pre, post⟩ := pr
      rw [capLoop_some hs]
      have hlen := splitFirstNl2_post_length hs
      have hstrip := pyStrip_length_le post
      exact ih (pyStrip post) (by omega)

/-- The buffer left by `check_and_process_tokens` never contains the
separator. -/
theorem capLoop_snd_no_sep (buf : PyStr) : hasNl2 (capLoop buf).2 = false :=
  capLoop_snd_hasNl2 buf.length buf (Nat.le_refl _)

/-! ### Stripping is idempotent -/

/-- Dropping a prefix of `p`-satisfying elements twice is the same as
doing it once. -/
theorem dropWhile_isPySpace_idem (l : PyStr) :
    (l.dropWhile isPySpace).dropWhile isPySpace = l.dropWhile isPySpace := by
  cases hd : l.dropWhile isPySpace with
  | nil => rfl
  | cons c t =>
    have hhead : isPySpace c = false := by
      have H := List.head?_dropWhile_not isPySpace l
      rw [hd, List.head?_cons] at H
      exact H
    exact List.dropWhile_cons_of_neg (by simp [hhead])

/-- The head of a stripped string is not whitespace. -/
theorem pyStrip_head_not_space {s : PyStr} {c : Char} {t : PyStr}
    (h : pyStrip s = c :: t) : isPySpace c = false := by
  unfold pyStrip at h
  obtain ⟨w, hw⟩ :=
    List.dropWhile_suffix (l := (s.dropWhile isPySpace).reverse) isPySpace
  have hflip := congrArg List.reverse hw
  rw [List.reverse_append, List.reverse_reverse] at hflip
  rw [h] at hflip
  have hhd : (s.dropWhile isPySpace).head? = some c := by
    rw [← hflip]
    simp
  have H := List.head?_dropWhile_not isPySpace s
  rw [hhd] at H
  exact H

/-- Python stripping is idempotent: stripping a stripped string changes
nothing. -/
theorem pyStrip_idem (s : PyStr) : pyStrip (pyStrip s) = pyStrip s := by
  have hleft : (pyStrip s).dropWhile isPySpace = pyStrip s := by
    cases hd : pyStrip s with
    | nil => rfl
    | cons c t => exact List.dropWhile_cons_of_neg (by simp [pyStrip_head_not_space hd])
  show pyStrip (pyStrip s) = pyStrip s
  unfold pyStrip
  show (((pyStrip s).dropWhile isPySpace).reverse.dropWhile isPySpace).reverse = _
  rw [hleft]
  unfold pyStrip
  rw [List.reverse_reverse, dropWhile_isPySpace_idem]

/-! ### The utterances emitted by the token-buffer loop are stripped -/

/-- Every utterance the `check_and_process_tokens` loop emits is a
`pyStrip` image, hence itself stripped. -/
theorem capLoop_fst_stripped :
    ∀ (n : Nat) (buf : PyStr), buf.length ≤ n →
      ∀ u ∈ (capLoop buf).1, pyStrip u = u := by
  intro n
  induction n with
  | zero =>
    intro buf hb u hu
    have : buf = [] := List.length_eq_zero.mp (by omega)
    subst this
    rw [capLoop_none (by rfl)] at hu
    simp at hu
  | succ n ih =>
    intro buf hb u hu
    cases hs : splitFirstNl2 buf with
    | none =>
      rw [capLoop_none hs] at hu
      simp at hu
    | some pr =>
      obtain ⟨pre, post⟩ := pr
      rw [capLoop_some hs] at hu
      have hlen := splitFirstNl2_post_length hs
      have hstrip := pyStrip_length_le post
      rcases List.mem_cons.mp hu with h1 | h2
      · rw [h1]; exact pyStrip_idem pre
      · exact ih (pyStrip post) (by omega) u h2

/-! ### The worker drain -/

/-- Running the worker loop with the stop event set pops and attempts every
queued utterance in FIFO order, plays exactly those whose synthesis call
does not fail, leaves the deque empty, and calls `task_done` once per
popped item. -/
theorem process_audio_after_stop_spec (fail : PyStr → Bool) :
    ∀ (q : List PyStr) (u : Nat),
      process_audio_after_stop fail q u =
        { attempted := q, played := q.filter (fun s => !(fail s)),
          remaining := [], unfinished := u - q.length } := by
  intro q
  induction q with
  | nil => intro u; rfl
  | cons s rest ih =>
    intro u
    cases rest with
    | nil =>
      rw [process_audio_after_stop]
      simp [List.filter_cons]
      by_cases hf : fail s = true
      · simp [hf]
      · simp at hf
        simp [hf]
    | cons r0 rs =>
      rw [process_audio_after_stop, ih (u - 1)]
      simp [List.filter_cons]
      constructor
      · by_cases hf : fail s = true
        · simp [hf]
        · simp at hf
          simp [hf]
      · omega

/-! ### How the lifecycle helper affects the data fields -/

/-- Ensuring a worker never touches the deque. -/
theorem ensure_queueItems (st : ProcState) :
    (ensure_audio_processing_started st).queueItems = st.queueItems := by
  unfold ensure_audio_processing_started start_audio_processing
  by_cases h : st.workerAlive <;> simp [h]

/-- Ensuring a worker never touches the unfinished count. -/
theorem ensure_unfinished (st : ProcState) :
    (ensure_audio_processing_started st).unfinished = st.unfinished := by
  unfold ensure_audio_processing_started start_audio_processing
  by_cases h : st.workerAlive <;> simp [h]

/-- Ensuring a worker never touches the token buffer. -/
theorem ensure_token_buffer (st : ProcState) :
    (ensure_audio_processing_started st).token_buffer = st.token_buffer := by
  unfold ensure_audio_processing_started start_audio_processing
  by_cases h : st.workerAlive <;> simp [h]

/-- The `put` loop of `add_text_to_queue`, in closed form. -/
theorem putStrip_foldl (l : List PyStr) : ∀ st : ProcState,
    l.foldl (fun s par => queuePut s (pyStrip par)) st =
      { st with queueItems := st.queueItems ++ l.map pyStrip,
                unfinished := st.unfinished + l.length } := by
  induction l with
  | nil => intro st; simp
  | cons a t ih =>
    intro st
    rw [List.foldl_cons, ih]
    simp only [queuePut, List.map_cons, List.length_cons, List.append_assoc,
      List.cons_append, List.nil_append]
    congr 1
    omega

/-- What `add_text_to_queue` does to the data fields. -/
theorem add_text_to_queue_spec (st : ProcState) (text : PyStr) :
    (add_text_to_queue st text).queueItems =
        st.queueItems ++ (splitAllNl2 text).map pyStrip ∧
    (add_text_to_queue st text).unfinished =
        st.unfinished + (splitAllNl2 text).length ∧
    (add_text_to_queue st text).token_buffer = st.token_buffer := by
  unfold add_text_to_queue
  rw [ensure_queueItems, ensure_unfinished, ensure_token_buffer, putStrip_foldl]
  exact ⟨rfl, rfl, rfl⟩

/-! ### Token streaming: the state reached depends only on the text so far -/

/-- The `(deque, token buffer)` effect of one `add_token` call. -/
def segStep (qb : List PyStr × PyStr) (t : PyStr) : List PyStr × PyStr :=
  (qb.1 ++ (capLoop (qb.2 ++ t)).1, (capLoop (qb.2 ++ t)).2)

/-- `add_token` acts on the deque and token buffer exactly as `segStep`;
the lifecycle side effect does not touch them. -/
theorem add_token_proj (st : ProcState) (t : PyStr) :
    ((add_token st t).queueItems, (add_token st t).token_buffer) =
      segStep (st.queueItems, st.token_buffer) t := by
  unfold add_token check_and_process_tokens segStep
  rw [ensure_queueItems, ensure_token_buffer]

/-- Streams of `add_token` calls act on the deque and token buffer as
iterated `segStep`. -/
theorem foldl_add_token_proj (ts : List PyStr) : ∀ st : ProcState,
    ((ts.foldl add_token st).queueItems, (ts.foldl add_token st).token_buffer) =
      ts.foldl segStep (st.queueItems, st.token_buffer) := by
  induction ts with
  | nil => intro st; rfl
  | cons t rest ih =>
    intro rest_st
    rw [List.foldl_cons, List.foldl_cons, ih (add_token rest_st t), add_token_proj]

/-- The text whose token-partitions claim C5 is about. -/
def tokenTarget : PyStr := "A\n\nB".data

/-- The `(deque, token buffer)` state after the first `k` characters of
`tokenTarget` have been fed in, however they were partitioned. -/
def stage : Nat → List PyStr × PyStr
  | 0 => ([], [])
  | 1 => ([], "A".data)
  | 2 => ([], "A\n".data)
  | 3 => (["A".data], [])
  | _ => (["A".data], "B".data)

/-- One `add_token` call carrying the characters of `tokenTarget` from
position `i` to position `j` moves the segmenter from stage `i` to
stage `j` (finitely many cases, checked by evaluation). -/
theorem stage_step : ∀ i j : Fin 5, i.1 ≤ j.1 →
    segStep (stage i.1) ((tokenTarget.drop i.1).take (j.1 - i.1)) = stage j.1 := by
  decide

/-- Feeding any token partition of the tail of `tokenTarget` from stage
`i` ends in stage 4. -/
theorem segStep_run :
    ∀ (ts : List PyStr) (i : Nat), i ≤ 4 →
      tokenTarget.take i ++ ts.flatten = tokenTarget →
      ts.foldl segStep (stage i) = stage 4 := by
  intro ts
  induction ts with
  | nil =>
    intro i hi h
    rw [List.flatten_nil, List.append_nil] at h
    have hlen := congrArg List.length h
    rw [List.length_take] at hlen
    have : i = 4 := by
      have : tokenTarget.length = 4 := by decide
      omega
    subst this
    rfl
  | cons t rest ih =>
    intro i hi h
    rw [List.flatten_cons, ← List.append_assoc] at h
    have htake_len : (tokenTarget.take i).length = i := by
      rw [List.length_take]
      have : tokenTarget.length = 4 := by decide
      omega
    have hdrop : tokenTarget.drop i = t ++ rest.flatten := by
      have := congrArg (List.drop i) h
      rw [List.append_assoc, List.drop_left' htake_len] at this
      exact this.symm
    have hlen4 : tokenTarget.length = 4 := by decide
    have hj : i + t.length ≤ 4 := by
      have := congrArg List.length hdrop
      rw [List.length_drop, List.length_append] at this
      omega
    have ht : (tokenTarget.drop i).take t.length = t := by
      rw [hdrop, List.take_left' rfl]
    have hstep : segStep (stage i) t = stage (i + t.length) := by
      have := stage_step ⟨i, by omega⟩ ⟨i + t.length, by omega⟩ (by simp)
      simp only [Nat.add_sub_cancel_left] at this
      rw [ht] at this
      exact this
    have hnext : tokenTarget.take (i + t.length) ++ rest.flatten = tokenTarget := by
      have htj : tokenTarget.take (i + t.length) = tokenTarget.take i ++ t := by
        have hTL := @List.take_left' Char (tokenTarget.take i ++ t)
          rest.flatten (i + t.length) (by rw [List.length_append, htake_len])
        rw [h] at hTL
        exact hTL
      rw [htj]
      exact h
    rw [List.foldl_cons, hstep]
    exact ih (i + t.length) hj hnext

/-! ### Concrete states used to instantiate the claims -/

/-- A processor with a live worker and three utterances queued and not yet
spoken (the scenario of the spec's reset/stop discussion). -/
def c1State : ProcState :=
  { queueItems := ["X".data, "Y".data, "Z".data]
    unfinished := 3
    token_buffer := []
    is_processing := false
    stop_event := false
    workerAlive := true
    startedCount := 1
    played := [] }

/-- A processor with a live worker whose queue has fully drained
(`unfinished_tasks = 0`), as observed at the instant `sentence_queue.join()`
returns inside `wait_for_completion`. -/
def c8State : ProcState :=
  { queueItems := []
    unfinished := 0
    token_buffer := []
    is_processing := false
    stop_event := false
    workerAlive := true
    startedCount := 1
    played := ["X".data] }

/-! ### Claim C1 -/

/-- Claim C1, counterexample: with a live worker, three queued utterances
and nothing mid-playback, `stop_audio_processing` streams all three queued
utterances to the sink (the worker loop keeps popping while the queue is
non-empty even though the stop event is set), contradicting "those queued
utterances are discarded and never synthesized or played; at most the
utterance currently mid-playback is heard". -/
theorem C1_counterexample :
    (stop_audio_processing (fun _ => false) c1State).played
        = ["X".data, "Y".data, "Z".data] ∧
    ¬ (stop_audio_processing (fun _ => false) c1State).played = [] := by
  decide

/-- Claim C1, amended: a stop request does not abandon queued utterances.
With a live worker, the worker pops and attempts every queued utterance in
FIFO order after the stop request; all whose synthesis succeeds are played;
only then does the worker exit, and `clear_queues` finds the deque already
empty. -/
theorem C1_amended (fail : PyStr → Bool) (st : ProcState)
    (h : st.workerAlive = true) :
    (process_audio_after_stop fail st.queueItems st.unfinished).attempted
        = st.queueItems ∧
    (stop_audio_processing fail st).played
        = st.played ++ st.queueItems.filter (fun s => !(fail s)) ∧
    (stop_audio_processing fail st).queueItems = [] := by
  unfold stop_audio_processing clear_queues
  simp [h, process_audio_after_stop_spec]

/-- Claim C1, witness for the amended theorem at the three-utterance
state. -/
theorem C1_witness :
    (process_audio_after_stop (fun _ => false) c1State.queueItems
        c1State.unfinished).attempted = c1State.queueItems ∧
    (stop_audio_processing (fun _ => false) c1State).played
        = c1State.played ++ c1State.queueItems.filter (fun s => !((fun _ => false) s)) ∧
    (stop_audio_processing (fun _ => false) c1State).queueItems = [] :=
  C1_amended (fun _ => false) c1State rfl

/-! ### Claim C2 -/

/-- Claim C2, counterexample: `add_text_to_queue` on the text
with two paragraph separators enqueues three utterances, the trailing empty string
included, not two: the source `put`s `paragraph.strip()` for every part of
the split with no emptiness filter. -/
theorem C2_counterexample :
    (add_text_to_queue initState ("A\n\nB\n\n".data)).queueItems
        = ["A".data, "B".data, []] ∧
    ¬ (add_text_to_queue initState ("A\n\nB\n\n".data)).queueItems
        = ["A".data, "B".data] := by
  decide

/-- Claim C2, amended: every utterance enqueued by `add_text_to_queue`,
`add_token` or `finalize_tokens` is whitespace-stripped, but segments that
are empty after stripping are enqueued as empty strings rather than
discarded; in particular `submit_block("A\n\nB\n\n")` enqueues exactly the
three utterances `"A"`, `"B"`, `""`. -/
theorem C2_amended :
    (add_text_to_queue initState ("A\n\nB\n\n".data)).queueItems
        = ["A".data, "B".data, []] ∧
    (∀ st : ProcState, ∀ text u, u ∈ (add_text_to_queue st text).queueItems →
      u ∈ st.queueItems ∨ pyStrip u = u) ∧
    (∀ st : ProcState, ∀ tok u, u ∈ (add_token st tok).queueItems →
      u ∈ st.queueItems ∨ pyStrip u = u) ∧
    (∀ st : ProcState, ∀ u, u ∈ (finalize_tokens st).queueItems →
      u ∈ st.queueItems ∨ pyStrip u = u) := by
  refine ⟨by decide, ?_, ?_, ?_⟩
  · intro st text u hu
    rw [(add_text_to_queue_spec st text).1] at hu
    rcases List.mem_append.mp hu with hl | hr
    · exact Or.inl hl
    · right
      obtain ⟨x, _, hxu⟩ := List.mem_map.mp hr
      rw [← hxu]
      exact pyStrip_idem x
  · intro st tok u hu
    have hq : (add_token st tok).queueItems
        = st.queueItems ++ (capLoop (st.token_buffer ++ tok)).1 := by
      unfold add_token check_and_process_tokens
      rw [ensure_queueItems]
    rw [hq] at hu
    rcases List.mem_append.mp hu with hl | hr
    · exact Or.inl hl
    · exact Or.inr (capLoop_fst_stripped _ _ (Nat.le_refl _) u hr)
  · intro st u hu
    unfold finalize_tokens at hu
    by_cases hb : st.token_buffer = []
    · rw [if_pos hb] at hu
      exact Or.inl hu
    · rw [if_neg hb] at hu
      rcases List.mem_append.mp hu with hl | hr
      · exact Or.inl hl
      · right
        rw [List.mem_singleton.mp hr]
        exact pyStrip_idem _

/-- Claim C2, witness for the amended theorem: instantiates the
`add_text_to_queue` part at two of the three utterances enqueued by the
counterexample text, the empty one included. -/
theorem C2_witness :
    ("A".data ∈ initState.queueItems ∨ pyStrip ("A".data) = "A".data) ∧
    (([] : PyStr) ∈ initState.queueItems ∨ pyStrip ([] : PyStr) = []) :=
  ⟨C2_amended.2.1 initState ("A\n\nB\n\n".data) ("A".data) (by decide),
   C2_amended.2.1 initState ("A\n\nB\n\n".data) [] (by decide)⟩

/-! ### Claim C3 -/

/-- Claim C3, counterexample: after one `put` from the fresh state,
`clear_queues` empties the deque but leaves `unfinished_tasks` at 1, so a
`sentence_queue.join()` issued after `clear_queues` with no further pushes
would not return immediately. -/
theorem C3_counterexample :
    (clear_queues (queuePut initState ("A".data))).queueItems = [] ∧
    queue_join_ready (clear_queues (queuePut initState ("A".data))) = false := by
  decide

/-- Claim C3, amended: `clear_queues` discards all queued-but-not-yet-spoken
items, empties the token buffer and clears the `is_processing` flag, but it
leaves the queue's in-flight (`unfinished_tasks`) count unchanged; a `join`
issued after it returns immediately only when that count was already
zero. -/
theorem C3_amended (st : ProcState) :
    (clear_queues st).queueItems = [] ∧
    (clear_queues st).token_buffer = [] ∧
    (clear_queues st).is_processing = false ∧
    (clear_queues st).unfinished = st.unfinished ∧
    (queue_join_ready (clear_queues st) = true ↔ st.unfinished = 0) := by
  refine ⟨rfl, rfl, rfl, rfl, ?_⟩
  show (st.unfinished == 0) = true ↔ st.unfinished = 0
  simp

/-! ### Claim C4 -/

/-- Claim C4 evaluates the fade-out at its failing input: with the default
0.5 s duration, rate 24000 and chunk size 1024 the loop runs 11 steps, and
at every step the chunk written to the sink is
`(b'\x00' * 1024) * int(1 - volume)` with `0 < volume < 1`, hence has
length `1024 * 0 = 0`.  The fade-out writes only empty chunks — no audio
at all — contradicting the specified positive-length progressively quieter
chunks (the code's own docstring says it fades the audio out; writing
zero bytes cannot). -/
theorem C4_fade_writes_empty :
    fade_steps 24000 1024 (1 / 2) = 11 ∧
    fade_out_chunk_sizes 24000 1024 (1 / 2) = List.replicate 11 0 := by
  have hsteps : fade_steps 24000 1024 (1 / 2) = 11 := by
    unfold fade_steps
    have hcast : ((24000 : Nat) : ℚ) / ((1024 : Nat) : ℚ) * (1 / 2) = 375 / 32 := by
      norm_num
    rw [hcast]
    rw [show Int.floor ((375 : ℚ) / 32) = 11 by
      rw [Int.floor_eq_iff]
      norm_num]
    rfl
  have hchunk : ∀ k : Nat, fade_chunk_len 1024 (k + 1) = 0 := by
    intro k
    unfold fade_chunk_len
    have h0 : (0 : ℚ) < (9 / 10 : ℚ) ^ (k + 1) := by positivity
    have h1 : ((9 : ℚ) / 10) ^ (k + 1) ≤ 9 / 10 := by
      calc ((9 : ℚ) / 10) ^ (k + 1) ≤ ((9 : ℚ) / 10) ^ 1 :=
            pow_le_pow_of_le_one (by norm_num) (by norm_num) (by omega)
        _ = 9 / 10 := pow_one _
    have hfl : Int.floor ((1 : ℚ) - (9 / 10 : ℚ) ^ (k + 1)) = 0 := by
      rw [Int.floor_eq_zero_iff, Set.mem_Ico]
      constructor
      · linarith
      · linarith
    rw [hfl]
    rfl
  refine ⟨hsteps, ?_⟩
  unfold fade_out_chunk_sizes
  rw [hsteps]
  rw [List.eq_replicate_iff]
  constructor
  · simp
  · intro b hb
    obtain ⟨i, _, hib⟩ := List.mem_map.mp hb
    rw [← hib]
    exact hchunk i

/-! ### Claim C5 -/

/-- Claim C5: for every partition of `"A\n\nB"` into an ordered sequence
of tokens, feeding the tokens in order to `add_token` and then calling
`finalize_tokens` enqueues exactly the two utterances `"A"` then `"B"`,
with `"B"` emitted by the flush (before the flush the deque holds only
`"A"` and the buffer holds `"B"`); the result is the same for every
split. -/
theorem C5_token_partitions (ts : List PyStr) (h : ts.flatten = "A\n\nB".data) :
    (ts.foldl add_token initState).queueItems = ["A".data] ∧
    (ts.foldl add_token initState).token_buffer = "B".data ∧
    (finalize_tokens (ts.foldl add_token initState)).queueItems
        = ["A".data, "B".data] ∧
    (finalize_tokens (ts.foldl add_token initState)).token_buffer = [] := by
  have hrun : ((ts.foldl add_token initState).queueItems,
      (ts.foldl add_token initState).token_buffer) = (["A".data], "B".data) := by
    rw [foldl_add_token_proj ts initState]
    show ts.foldl segStep (stage 0) = stage 4
    exact segStep_run ts 0 (by omega) (by rw [List.take_zero, List.nil_append, h]; rfl)
  have hq : (ts.foldl add_token initState).queueItems = ["A".data] :=
    congrArg Prod.fst hrun
  have hb : (ts.foldl add_token initState).token_buffer = "B".data :=
    congrArg Prod.snd hrun
  refine ⟨hq, hb, ?_, ?_⟩
  · unfold finalize_tokens
    rw [if_neg (by rw [hb]; decide)]
    show (ts.foldl add_token initState).queueItems
        ++ [pyStrip (ts.foldl add_token initState).token_buffer] = _
    rw [hq, hb]
    decide
  · unfold finalize_tokens
    rw [if_neg (by rw [hb]; decide)]

/-- Claim C5, witness: the partition `["A\n", "\n", "B"]` of the target
text. -/
theorem C5_witness :
    ((["A\n".data, "\n".data, "B".data] : List PyStr).foldl add_token
        initState).queueItems = ["A".data] ∧
    ((["A\n".data, "\n".data, "B".data] : List PyStr).foldl add_token
        initState).token_buffer = "B".data ∧
    (finalize_tokens ((["A\n".data, "\n".data, "B".data] : List PyStr).foldl
        add_token initState)).queueItems = ["A".data, "B".data] ∧
    (finalize_tokens ((["A\n".data, "\n".data, "B".data] : List PyStr).foldl
        add_token initState)).token_buffer = [] :=
  C5_token_partitions ["A\n".data, "\n".data, "B".data] (by decide)

/-! ### Claim C6 -/

/-- Claim C6: voice resolution at construction is total and matches the
fixed table: every key of `ALLOWED_VOICES` resolves to its name, every
integer outside 1..6 resolves to `"alloy"`, a string resolves to its
lowercase form when that is an allowed name, and to `"alloy"` otherwise.
The function is total, so no input raises. -/
theorem C6_validate_voice :
    (∀ (n : Int) (name : PyStr), (n, name) ∈ ALLOWED_VOICES →
      validate_voice (.int n) = name) ∧
    (∀ n : Int, (n < 1 ∨ 6 < n) → validate_voice (.int n) = "alloy".data) ∧
    (∀ s : PyStr, pyLower s ∈ allowedVoiceNames →
      validate_voice (.str s) = pyLower s) ∧
    (∀ s : PyStr, pyLower s ∉ allowedVoiceNames →
      validate_voice (.str s) = "alloy".data) := by
  refine ⟨?_, ?_, ?_, ?_⟩
  · intro n name h
    simp only [ALLOWED_VOICES, List.mem_cons, Prod.mk.injEq,
      List.not_mem_nil, or_false] at h
    rcases h with ⟨rfl, rfl⟩ | ⟨rfl, rfl⟩ | ⟨rfl, rfl⟩ | ⟨rfl, rfl⟩ |
      ⟨rfl, rfl⟩ | ⟨rfl, rfl⟩ <;> decide
  · intro n h
    have h1 : (n == 1) = false := by simp only [beq_eq_false_iff_ne, ne_eq]; omega
    have h2 : (n == 2) = false := by simp only [beq_eq_false_iff_ne, ne_eq]; omega
    have h3 : (n == 3) = false := by simp only [beq_eq_false_iff_ne, ne_eq]; omega
    have h4 : (n == 4) = false := by simp only [beq_eq_false_iff_ne, ne_eq]; omega
    have h5 : (n == 5) = false := by simp only [beq_eq_false_iff_ne, ne_eq]; omega
    have h6 : (n == 6) = false := by simp only [beq_eq_false_iff_ne, ne_eq]; omega
    simp [validate_voice, ALLOWED_VOICES, List.lookup, h1, h2, h3, h4, h5, h6]
  · intro s h
    simp [validate_voice, h]
  · intro s h
    simp [validate_voice, h]

/-- Claim C6, witness: index 3 resolves to `"fable"`, out-of-range 99 and
an unknown name resolve to `"alloy"`, and `"Echo"` resolves
case-insensitively to `"echo"`. -/
theorem C6_witness :
    validate_voice (.int 3) = "fable".data ∧
    validate_voice (.int 99) = "alloy".data ∧
    validate_voice (.str ("Echo".data)) = "echo".data ∧
    validate_voice (.str ("not-a-voice".data)) = "alloy".data := by
  refine ⟨C6_validate_voice.1 3 ("fable".data) (by decide),
    C6_validate_voice.2.1 99 (Or.inr (by omega)), ?_,
    C6_validate_voice.2.2.2 ("not-a-voice".data) (by decide)⟩
  rw [C6_validate_voice.2.2.1 ("Echo".data) (by decide)]
  decide

/-! ### Claim C7 -/

/-- Claim C7: for every failure pattern, the worker attempts every queued
utterance in order (a failed synthesis or sink write never aborts the
worker), plays exactly the non-failing ones, and the `finally` block calls
`task_done` once per popped utterance — failed ones exactly like successful
ones — so the in-flight count drops by the full queue length and a drain
wait cannot hang because of a failed item. -/
theorem C7_failure_isolation (fail : PyStr → Bool) (q : List PyStr) (u : Nat) :
    (process_audio_after_stop fail q u).attempted = q ∧
    (process_audio_after_stop fail q u).played
        = q.filter (fun s => !(fail s)) ∧
    (process_audio_after_stop fail q u).unfinished = u - q.length ∧
    (process_audio_after_stop fail q u).remaining = [] := by
  rw [process_audio_after_stop_spec]
  exact ⟨rfl, rfl, rfl, rfl⟩

/-! ### Claim C8 -/

/-- Claim C8: when `sentence_queue.join()` returns inside
`wait_for_completion` (in-flight count zero — and hence, by the queue
discipline relating deque length to in-flight count, an empty deque) with
a worker running, the rest of the call stops the worker: afterwards the
in-flight count is still zero, the stop event is set, no worker is alive,
the deque is empty, and nothing further was sent to the sink (no queued
utterance was pending, so none was abandoned). -/
theorem C8_wait_for_completion (fail : PyStr → Bool) (st : ProcState)
    (hw : st.workerAlive = true) (hu : st.unfinished = 0)
    (hq : st.queueItems.length ≤ st.unfinished) :
    (wait_for_completion fail st).unfinished = 0 ∧
    (wait_for_completion fail st).stop_event = true ∧
    (wait_for_completion fail st).workerAlive = false ∧
    (wait_for_completion fail st).queueItems = [] ∧
    (wait_for_completion fail st).played = st.played := by
  have hnil : st.queueItems = [] := List.length_eq_zero.mp (by omega)
  unfold wait_for_completion stop_audio_processing clear_queues
  simp [hw, hnil, hu, process_audio_after_stop_spec]

/-- Claim C8, witness at the drained state with a live worker. -/
theorem C8_witness :
    (wait_for_completion (fun _ => true) c8State).unfinished = 0 ∧
    (wait_for_completion (fun _ => true) c8State).stop_event = true ∧
    (wait_for_completion (fun _ => true) c8State).workerAlive = false ∧
    (wait_for_completion (fun _ => true) c8State).queueItems = [] ∧
    (wait_for_completion (fun _ => true) c8State).played = c8State.played :=
  C8_wait_for_completion (fun _ => true) c8State rfl rfl (by decide)

/-! ### Claim C9 -/

/-- Claim C9: `_ensure_audio_processing_started` is idempotent — a second
call right after a first changes nothing; with a live worker it is a
no-op starting no thread; with no live worker it starts exactly one. -/
theorem C9_ensure_idempotent (st : ProcState) :
    ensure_audio_processing_started (ensure_audio_processing_started st)
        = ensure_audio_processing_started st ∧
    (st.workerAlive = true → ensure_audio_processing_started st = st) ∧
    (st.workerAlive = false →
      (ensure_audio_processing_started st).workerAlive = true ∧
      (ensure_audio_processing_started st).startedCount
          = st.startedCount + 1) := by
  unfold ensure_audio_processing_started start_audio_processing
  by_cases h : st.workerAlive = true
  · simp [h]
  · simp at h
    simp [h]

/-- Claim C9, witness: a no-op on the live-worker state, exactly one start
from the fresh state. -/
theorem C9_witness :
    ensure_audio_processing_started c1State = c1State ∧
    (ensure_audio_processing_started initState).workerAlive = true ∧
    (ensure_audio_processing_started initState).startedCount
        = initState.startedCount + 1 :=
  ⟨(C9_ensure_idempotent c1State).2.1 rfl,
   ((C9_ensure_idempotent initState).2.2 rfl).1,
   ((C9_ensure_idempotent initState).2.2 rfl).2⟩

/-! ### Claim C10 -/

/-- The public operations of claim C10, as an alphabet of events. -/
inductive ApiOp where
  | tok (t : PyStr)
  | block (t : PyStr)
  | fin
  | stop

/-- Apply one public operation to the processor state. -/
def applyOp (fail : PyStr → Bool) (st : ProcState) : ApiOp → ProcState
  | .tok t => add_token st t
  | .block t => add_text_to_queue st t
  | .fin => finalize_tokens st
  | .stop => stop_audio_processing fail st

/-- Run a sequence of public operations from the freshly constructed
state. -/
def runOps (fail : PyStr → Bool) (ops : List ApiOp) : ProcState :=
  ops.foldl (applyOp fail) initState

/-- `finalize_tokens` always leaves an empty buffer. -/
theorem finalize_tokens_buffer (st : ProcState) :
    (finalize_tokens st).token_buffer = [] := by
  unfold finalize_tokens
  by_cases hb : st.token_buffer = []
  · rw [if_pos hb]
    exact hb
  · rw [if_neg hb]

/-- `stop_audio_processing` always leaves an empty buffer (it ends in
`clear_queues`). -/
theorem stop_audio_processing_buffer (fail : PyStr → Bool) (st : ProcState) :
    (stop_audio_processing fail st).token_buffer = [] := by
  unfold stop_audio_processing clear_queues
  by_cases hw : st.workerAlive = true
  · simp [hw]
  · simp at hw
    simp [hw]

/-- No public operation can leave a paragraph separator in the token
buffer. -/
theorem applyOp_no_sep (fail : PyStr → Bool) (st : ProcState) (op : ApiOp)
    (h : hasNl2 st.token_buffer = false) :
    hasNl2 (applyOp fail st op).token_buffer = false := by
  cases op with
  | tok t =>
    show hasNl2 (add_token st t).token_buffer = false
    unfold add_token
    rw [ensure_token_buffer]
    exact capLoop_snd_no_sep _
  | block t =>
    show hasNl2 (add_text_to_queue st t).token_buffer = false
    rw [(add_text_to_queue_spec st t).2.2]
    exact h
  | fin =>
    show hasNl2 (finalize_tokens st).token_buffer = false
    rw [finalize_tokens_buffer]
    rfl
  | stop =>
    show hasNl2 (stop_audio_processing fail st).token_buffer = false
    rw [stop_audio_processing_buffer]
    rfl

/-- Claim C10: starting from the initial empty buffer, after every
sequence of public operations the token buffer contains no paragraph
separator; and a trailing `finalize_tokens` or
`stop_audio_processing`/`clear_queues` always leaves it empty. -/
theorem C10_buffer_invariant (fail : PyStr → Bool) (ops : List ApiOp) :
    hasNl2 (runOps fail ops).token_buffer = false ∧
    (runOps fail (ops ++ [ApiOp.fin])).token_buffer = [] ∧
    (runOps fail (ops ++ [ApiOp.stop])).token_buffer = [] := by
  have hinv : ∀ (l : List ApiOp) (st : ProcState),
      hasNl2 st.token_buffer = false →
      hasNl2 (l.foldl (applyOp fail) st).token_buffer = false := by
    intro l
    induction l with
    | nil => intro st h; exact h
    | cons op rest ih =>
      intro st h
      exact ih _ (applyOp_no_sep fail st op h)
  refine ⟨hinv ops initState rfl, ?_, ?_⟩
  · rw [runOps, List.foldl_append]
    exact finalize_tokens_buffer _
  · rw [runOps, List.foldl_append]
    exact stop_audio_processing_buffer _ _
